import Mathlib

/-!
Shallow embedding of the SQL-validation engine of this repository
(`fonz/validators.py` together with the orchestration in
`spectacles/runner.py`), and proofs settling the frozen claims about it.

Python objects become Lean structures; in-place mutation of hierarchy
nodes becomes functional update addressed by position in the hierarchy
(a Python object identity inside `project.models[mi].explores[ei]`
corresponds to the index pair `(mi, ei)` here); Python exceptions become
`Except` errors; the remote Looker API is an oracle parameter mapping a
query request to the raw result the service would return.
-/

namespace Spectacles

/-- Embeds `fonz.exceptions.SqlError`: path, sql, optional line number,
message, optional URL (`validators.py` lines 276-278 and 311-313). -/
structure SqlError where
  path : String
  sql : String
  line_number : Option Int
  message : String
  url : Option String
deriving Repr, DecidableEq, Inhabited

/-- Embeds `fonz.lookml.Dimension`: name, URL, ignore flag, errored flag
and attached error. -/
structure Dimension where
  name : String
  url : String
  ignore : Bool
  errored : Bool
  error : Option SqlError
deriving Repr, DecidableEq, Inhabited

/-- Embeds `fonz.lookml.Explore`: name, dimension list, errored flag and
attached error (the error is only set in batch mode). -/
structure Explore where
  name : String
  dimensions : List Dimension
  errored : Bool
  error : Option SqlError
deriving Repr, DecidableEq, Inhabited

/-- Embeds `fonz.lookml.Model`: name, parent project name, explore list,
errored flag. -/
structure Model where
  name : String
  project : String
  explores : List Explore
  errored : Bool
deriving Repr, DecidableEq, Inhabited

/-- Embeds `fonz.lookml.Project`: name and list of models. -/
structure Project where
  name : String
  models : List Model
deriving Repr, DecidableEq, Inhabited

/-- One entry of the `errors` array of an unsuccessful API query result:
`message_details` and the optional `sql_error_loc.line` field
(`validators.py` lines 221-227). -/
structure ApiError where
  message_details : String
  sql_error_loc : Option Int
deriving Repr, DecidableEq, Inhabited

/-- Raw result of one async query, as discriminated by `_query_explore`
and `_query_dimension` (`validators.py` lines 273-289, 308-325): a JSON
list is a success; a dict is carried with its `errors` array (absent or
empty `errors` embeds as the empty list) and its `sql` field; anything
that is neither a list nor a dict is `malformed` with its repr. -/
inductive QueryResult where
  | success : QueryResult
  | payload (errors : List ApiError) (sql : String) : QueryResult
  | malformed (raw : String) : QueryResult
deriving Repr, DecidableEq, Inhabited

/-- Embeds the exceptions the engine can raise. The source raises a
single `FonzException` class (plus built-in `IndexError`); the
constructors here record the raise site and its payload, matching the
spec taxonomy: `configError` from `parse_selectors` (line 68) carrying
the offending selector, `selectionError` from `_select` (line 83)
carrying the entity class name, the missing names and the project name,
`protocolError` from `_query_explore` / `_query_dimension` (lines 286,
322) carrying the unit path and the raw result, and `indexError` for the
`select_from[0]` access on an empty sequence (line 84). -/
inductive PyError where
  | configError (selector : String)
  | selectionError (cls : String) (missing : List String) (project : String)
  | protocolError (path : String) (raw : QueryResult)
  | indexError
deriving Repr, DecidableEq, Inhabited

/-- The message built at `validators.py` lines 68-72: it names the
offending selector and the expected format. -/
def render_config_error (selector : String) : String :=
  "Explore selector " ++ selector
    ++ " is not valid. Instead, use the format model_name.explore_name. Use model_name.* to select all explores in a model."

/-- The message built at `validators.py` lines 83-88: class name,
plural-aware suffix, every missing name, project name. -/
def render_selection_error (cls : String) (missing : List String) (project : String) : String :=
  cls ++ (if missing.length = 1 then "" else "s") ++ " "
    ++ String.intercalate ", " missing
    ++ " not found in LookML for project " ++ project ++ "."

/-- A `defaultdict(set)` from model names to explore-name sets
(`parse_selectors`, line 63), embedded as an association list in key
insertion order whose value lists carry no duplicates. -/
abbrev Selection := List (String × List String)

/-- Embeds `selection[model].add(explore)` (line 74): set-insert into the
entry for `model`, creating the entry if absent (defaultdict). -/
def selInsert : Selection → String → String → Selection
  | [], m, e => [(m, [e])]
  | (k, es) :: rest, m, e =>
    if k = m then (k, if e ∈ es then es else es ++ [e]) :: rest
    else (k, es) :: selInsert rest m e

/-- Embeds `selection[model]` read access with defaultdict semantics:
a missing key reads as the empty set. -/
def selGet : Selection → String → List String
  | [], _ => []
  | (k, es) :: rest, m => if k = m then es else selGet rest m

/-- Embeds Python `str.split(".")` on the character list of a string:
splits at every dot, keeping empty tokens (so the result always has one
more element than the number of dots). -/
def splitDot : List Char → List (List Char)
  | [] => [[]]
  | c :: rest =>
    if c = '.' then [] :: splitDot rest
    else
      match splitDot rest with
      | [] => [[c]]
      | t :: ts => (c :: t) :: ts

/-- Tail of `parse_selectors` (lines 64-75): fold over the selectors,
splitting each on the dot. Exactly a two-element unpacking succeeds; any
other shape raises (`ValueError` caught and re-raised as the
configuration error naming the selector). -/
def parse_selectors_from (sel : Selection) : List String → Except PyError Selection
  | [] => .ok sel
  | s :: rest =>
    match splitDot s.toList with
    | [m, e] => parse_selectors_from (selInsert sel (String.mk m) (String.mk e)) rest
    | _ => .error (.configError s)

/-- Embeds `SqlValidator.parse_selectors` (`validators.py` lines 49-75). -/
def parse_selectors (selectors : List String) : Except PyError Selection :=
  parse_selectors_from [] selectors

/-- Embeds `SqlValidator._select` (`validators.py` lines 78-89). The
`cls` argument embeds `select_from[0].__class__.__name__`: the class
name is obtained from the first element of `select_from`, so an empty
`select_from` with a non-empty difference raises `IndexError` before the
selection error can be built. -/
def _select {α : Type} (projectName : String) (cls : α → String)
    (choices : List String) (select_from : List α) (name : α → String) :
    Except PyError (List α) :=
  let unique_choices := choices.dedup
  let select_from_names := select_from.map name
  let difference := unique_choices.filter (fun c => ¬ c ∈ select_from_names)
  if difference.isEmpty then
    .ok (select_from.filter (fun each => name each ∈ unique_choices))
  else
    match select_from with
    | [] => .error .indexError
    | e :: _ => .error (.selectionError (cls e) difference projectName)

/-- The data `build_project` obtains from the `LookerClient`: the base
URL (line 138), the JSON model listing already decoded into `Model`
values by `Model.from_json` (line 105; the listing supplies explores
with empty dimension lists), and the dimension listing per model and
explore already decoded by `Dimension.from_json` (lines 135-137). -/
structure ClientData where
  base_url : String
  models_json : List Model
  dimensions_json : String → String → List Dimension

/-- Embeds the explore-level wildcard expansion of `build_project`
(lines 123-128): if the selected explore names contain the wildcard,
remove it and union in every discovered explore name of the model. -/
def expand_wildcard (selected : List String) (discovered : List String) : List String :=
  if "*" ∈ selected then
    let s := selected.filter (fun x => x ≠ "*")
    s ++ discovered.filter (fun x => ¬ x ∈ s)
  else selected

/-- Embeds the model-level wildcard expansion of `build_project`
(lines 111-115): if the selection has a `*` key, pop it and union its
explore set into the entry of every discovered project model. -/
def expand_model_wildcard (sel : Selection) (project_models : List Model) : Selection :=
  match sel.lookup "*" with
  | none => sel
  | some es =>
    let rest := sel.filter (fun kv => kv.1 ≠ "*")
    project_models.foldl (fun s m => es.foldl (fun s e => selInsert s m.name e) s) rest

/-- Embeds the dimension-attachment loop of `build_project`
(lines 134-140): for every listed dimension, prefix the base URL to its
URL, and keep it only when `ignore` is false. -/
def selected_dimension_list (client : ClientData) (modelName : String) (explore : Explore) :
    List Dimension :=
  ((client.dimensions_json modelName explore.name).map
      (fun d => { d with url := client.base_url ++ d.url })).filter (fun d => !d.ignore)

/-- Embeds the per-model body of `build_project` (lines 121-142):
explore-level wildcard expansion, explore selection, and dimension
attachment (`add_dimension` appends to the dimensions the explore
already carries). -/
def build_model (client : ClientData) (projectName : String) (sel : Selection)
    (model : Model) : Except PyError Model :=
  let selected_explore_names :=
    expand_wildcard (selGet sel model.name) (model.explores.map (fun e => e.name))
  match _select projectName (fun _ => "Explore") selected_explore_names model.explores
      (fun e => e.name) with
  | .error e => .error e
  | .ok selected_explores =>
    .ok { model with explores := selected_explores.map (fun e =>
      { e with dimensions := e.dimensions ++ selected_dimension_list client model.name e }) }

/-- Sequential loop of `build_model` over the selected models
(`for model in selected_models`, line 121). -/
def build_models (client : ClientData) (projectName : String) (sel : Selection) :
    List Model → Except PyError (List Model)
  | [] => .ok []
  | m :: ms =>
    match build_model client projectName sel m with
    | .error e => .error e
    | .ok m' =>
      match build_models client projectName sel ms with
      | .error e => .error e
      | .ok ms' => .ok (m' :: ms')

/-- Embeds `SqlValidator.build_project` (`validators.py` lines 91-144):
parse the selectors, filter the discovered models to the project, expand
the model-level wildcard, resolve the chosen model names, then build
each selected model. -/
def build_project (client : ClientData) (projectName : String)
    (selectors : List String) : Except PyError Project :=
  match parse_selectors selectors with
  | .error e => .error e
  | .ok selection0 =>
    let project_models := client.models_json.filter (fun m => m.project = projectName)
    let selection := expand_model_wildcard selection0 project_models
    match _select projectName (fun _ => "Model") (selection.map (fun kv => kv.1))
        project_models (fun m => m.name) with
    | .error e => .error e
    | .ok selected_models =>
      match build_models client projectName selection selected_models with
      | .error e => .error e
      | .ok ms => .ok { name := projectName, models := ms }

/-- The model at position `mi` of the hierarchy (`default` out of
range). A Python object reference into `project.models` corresponds to
this index. -/
def modelAt (p : Project) (mi : Nat) : Model :=
  p.models.getD mi default

/-- The explore at position `(mi, ei)` of the hierarchy. -/
def exploreAt (p : Project) (mi ei : Nat) : Explore :=
  (modelAt p mi).explores.getD ei default

/-- The dimension at position `(mi, ei, di)` of the hierarchy. -/
def dimensionAt (p : Project) (mi ei di : Nat) : Dimension :=
  (exploreAt p mi ei).dimensions.getD di default

/-- Names of the dimensions of the explore at `(mi, ei)`
(`[dimension.name for dimension in explore.dimensions]`, line 270). -/
def dimsNamesAt (p : Project) (mi ei : Nat) : List String :=
  (exploreAt p mi ei).dimensions.map (fun d => d.name)

/-- Number of dimensions of the explore at `(mi, ei)`. -/
def dimCountAt (p : Project) (mi ei : Nat) : Nat :=
  (exploreAt p mi ei).dimensions.length

/-- Functional update of the element at position `i` (identity out of
range): the effect of mutating the Python object held at that position. -/
def updateAt {α : Type} (i : Nat) (f : α → α) : List α → List α
  | [] => []
  | x :: xs =>
    match i with
    | 0 => f x :: xs
    | n + 1 => x :: updateAt n f xs

/-- Embeds `SqlValidator._get_error_from_api_result` (lines 211-228):
take the first entry of the `errors` array, subtract one from the
reported line when `sql_error_loc` is present. Returns the
`(sql, line_number, message)` parameter triple. -/
def _get_error_from_api_result (result_errors : List ApiError) (result_sql : String) :
    String × Option Int × String :=
  let e := result_errors.getD 0 default
  (result_sql, e.sql_error_loc.map (fun l => l - 1), e.message_details)

/-- Embeds `SqlValidator._query_explore` (lines 256-289) acting on the
explore at `(mi, ei)`, given the raw result of its query: a list is a
success; a dict with a non-empty `errors` array produces one `SqlError`
with path `model/explore`, sets the explore's `error`, the explore's
`errored` and the model's `errored`; anything else raises the protocol
error naming the unit and the raw result. -/
def _query_explore (p : Project) (mi ei : Nat) (result : QueryResult) :
    Except PyError (Project × Option SqlError) :=
  let model := modelAt p mi
  let explore := exploreAt p mi ei
  match result with
  | .success => .ok (p, none)
  | .payload [] _ =>
    .error (.protocolError (model.name ++ "/" ++ explore.name) result)
  | .payload (e :: es) sql =>
    let params := _get_error_from_api_result (e :: es) sql
    let err : SqlError :=
      { path := model.name ++ "/" ++ explore.name, sql := params.1,
        line_number := params.2.1, message := params.2.2, url := none }
    let p' : Project :=
      { p with models :=
          (updateAt mi (fun m =>
            { m with errored := true,
                     explores :=
                       (updateAt ei (fun ex =>
                         { ex with error := some err, errored := true }) m.explores) })
            p.models) }
    .ok (p', some err)
  | .malformed _ =>
    .error (.protocolError (model.name ++ "/" ++ explore.name) result)

/-- Embeds `SqlValidator._query_dimension` (lines 291-325) acting on the
dimension at `(mi, ei, di)`, given the raw result of its query: a list
is a success; a dict with a non-empty `errors` array produces one
`SqlError` with path `model/dimension` and the dimension's URL, sets the
dimension's `error`, and the `errored` flags of the dimension, its
explore and its model; anything else raises the protocol error naming
the unit and the raw result. -/
def _query_dimension (p : Project) (mi ei di : Nat) (result : QueryResult) :
    Except PyError (Project × Option SqlError) :=
  let model := modelAt p mi
  let dimension := dimensionAt p mi ei di
  match result with
  | .success => .ok (p, none)
  | .payload [] _ =>
    .error (.protocolError (model.name ++ "/" ++ dimension.name) result)
  | .payload (e :: es) sql =>
    let params := _get_error_from_api_result (e :: es) sql
    let err : SqlError :=
      { path := model.name ++ "/" ++ dimension.name, sql := params.1,
        line_number := params.2.1, message := params.2.2, url := some dimension.url }
    let p' : Project :=
      { p with models :=
          (updateAt mi (fun m =>
            { m with errored := true,
                     explores :=
                       (updateAt ei (fun ex =>
                         { ex with errored := true,
                                   dimensions :=
                                     (updateAt di (fun d =>
                                       { d with error := some err, errored := true })
                                       ex.dimensions) }) m.explores) })
            p.models) }
    .ok (p', some err)
  | .malformed _ =>
    .error (.protocolError (model.name ++ "/" ++ dimension.name) result)

/-- One query issued to the remote service (`create_query` arguments:
model name, explore name, dimension names; lines 249-251). -/
structure QueryRequest where
  model : String
  explore : String
  dimensions : List String
deriving Repr, DecidableEq, Inhabited

/-- The remote service, as the engine observes it: a map from the
arguments of `_run_async_query` to the raw result it returns. -/
abbrev Oracle := String → String → List String → QueryResult

/-- Embeds `_run_async_query` (lines 230-254): issue the query and
return the raw result, recording the request issued. -/
def _run_async_query (oracle : Oracle) (model explore : String)
    (dimensions : List String) : QueryRequest × QueryResult :=
  (⟨model, explore, dimensions⟩, oracle model explore dimensions)

/-- The batch-mode unit of `_validate_explore` (line 166): one query for
the explore at `(mi, ei)` over all its dimensions. -/
def _query_explore_run (oracle : Oracle) (p : Project) (mi ei : Nat) :
    QueryRequest × Except PyError (Project × Option SqlError) :=
  let (req, result) :=
    _run_async_query oracle (modelAt p mi).name (exploreAt p mi ei).name (dimsNamesAt p mi ei)
  (req, _query_explore p mi ei result)

/-- The per-dimension unit of `_validate_explore` (lines 169-173): one
query for the single dimension at `(mi, ei, di)`. -/
def _query_dimension_run (oracle : Oracle) (p : Project) (mi ei di : Nat) :
    QueryRequest × Except PyError (Project × Option SqlError) :=
  let dname := (dimsNamesAt p mi ei).getD di ""
  let (req, result) :=
    _run_async_query oracle (modelAt p mi).name (exploreAt p mi ei).name [dname]
  (req, _query_dimension p mi ei di result)

/-- The gathered per-dimension tasks of one explore: process the listed
dimension indices in order, collecting the optional `SqlError` of each;
a protocol error propagates out of the gather, and the errors collected
for this explore are lost with it (`run_until_complete` raises before
line 176 can filter them). -/
def _validate_dims (oracle : Oracle) (p : Project) (mi ei : Nat) :
    List Nat → List QueryRequest × Except PyError (Project × List SqlError)
  | [] => ([], .ok (p, []))
  | di :: rest =>
    let (req, r) := _query_dimension_run oracle p mi ei di
    match r with
    | .error e => ([req], .error e)
    | .ok (p', oe) =>
      let (reqs, r') := _validate_dims oracle p' mi ei rest
      (req :: reqs,
       r'.map (fun pe => (pe.1, oe.toList ++ pe.2)))

/-- Embeds `SqlValidator._validate_explore` (lines 146-176) for the
explore at `(mi, ei)`: in batch mode one query unit for the whole
explore, otherwise one query unit per dimension; returns the requests
issued and either the filtered error list or the propagated exception. -/
def _validate_explore (oracle : Oracle) (batch : Bool) (p : Project) (mi ei : Nat) :
    List QueryRequest × Except PyError (Project × List SqlError) :=
  match batch with
  | true =>
    let (req, r) := _query_explore_run oracle p mi ei
    ([req], r.map (fun po => (po.1, po.2.toList)))
  | false =>
    _validate_dims oracle p mi ei (List.range (dimCountAt p mi ei))

/-- The `(mi, ei)` pairs the nested loops of `validate` (lines 199-203)
visit: every explore of every model, in hierarchy order. Validation
never changes the shape of the hierarchy, so the pairs can be computed
up front. -/
def explore_index_list (p : Project) : List (Nat × Nat) :=
  (List.range p.models.length).flatMap (fun mi =>
    (List.range (modelAt p mi).explores.length).map (fun ei => (mi, ei)))

/-- The loop body chain of `validate`: run `_validate_explore` for each
index pair in order, threading the mutated hierarchy and extending the
accumulated error list; an exception propagates, dropping the
accumulated list with it. -/
def validate_go (oracle : Oracle) (batch : Bool) :
    Project → List (Nat × Nat) → List QueryRequest × Except PyError (Project × List SqlError)
  | p, [] => ([], .ok (p, []))
  | p, (mi, ei) :: rest =>
    let (reqs, r) := _validate_explore oracle batch p mi ei
    match r with
    | .error e => (reqs, .error e)
    | .ok (p', errs) =>
      let (reqs', r') := validate_go oracle batch p' rest
      (reqs ++ reqs', r'.map (fun pe => (pe.1, errs ++ pe.2)))

/-- Embeds `SqlValidator.validate` (lines 178-209): visit every explore
of every model, validating each; returns the requests issued and the
flat error list (or the propagated exception). -/
def validate (oracle : Oracle) (batch : Bool) (p : Project) :
    List QueryRequest × Except PyError (Project × List SqlError) :=
  validate_go oracle batch p (explore_index_list p)

/-- Embeds `Runner.validate_sql` (`runner.py` lines 47-54) at the
validation step: the `mode` string is passed directly as the `batch`
parameter of `validate`, where `if batch:` (line 165) tests Python
truthiness — for a string, non-emptiness. -/
def validate_sql (oracle : Oracle) (mode : String) (p : Project) :
    List QueryRequest × Except PyError (Project × List SqlError) :=
  validate oracle (mode != "") p

/-- Embeds `SqlValidator._count_explores` (lines 327-337). -/
def _count_explores (p : Project) : Nat :=
  p.models.foldl (fun acc m => acc + m.explores.length) 0

/-- Total number of dimensions held in the hierarchy: the number of
per-dimension query units a per-dimension validation pass issues. -/
def total_dimensions (p : Project) : Nat :=
  (p.models.map (fun m => (m.explores.map (fun e => e.dimensions.length)).sum)).sum

/-- A raw result that is neither a clean success (a list) nor a dict
with a non-empty `errors` array: exactly the shapes the classifiers
reject with the protocol error. -/
def malformedResult : QueryResult → Bool
  | .success => false
  | .payload errs _ => errs.isEmpty
  | .malformed _ => true

/-- Shape of an explore: its name and its dimension names. Validation
mutates `errored` flags and `error` fields only, so the shape of every
node is invariant across a run. -/
def eskel (e : Explore) : String × List String :=
  (e.name, e.dimensions.map (fun d => d.name))

/-- Shape of a model: its name and the shapes of its explores. -/
def mskel (m : Model) : String × List (String × List String) :=
  (m.name, m.explores.map eskel)

/-- Shape of the hierarchy: the shapes of its models. -/
def skel (p : Project) : List (String × List (String × List String)) :=
  p.models.map mskel

/-- Modelled from the spec: state of the concurrency-bounded dispatcher
of section 5. The dispatcher itself (the `spectacles` SqlValidator the
runner constructs with its `concurrency` argument) is not among the
source files; only its caller `Runner.validate_sql` is. Query units are
`pending` (queued), `inflight` (awaiting completion) or `done`. -/
structure SchedState where
  pending : Nat
  inflight : Nat
  done : Nat
deriving Repr, DecidableEq, Inhabited

/-- Modelled from the spec: a dispatcher transition under concurrency
bound `K` — launch a queued unit only while fewer than `K` are in
flight, or complete an in-flight unit. -/
inductive SchedStep (K : Nat) : SchedState → SchedState → Prop where
  | launch (p i d : Nat) : i < K → SchedStep K ⟨p + 1, i, d⟩ ⟨p, i + 1, d⟩
  | complete (p i d : Nat) : SchedStep K ⟨p, i + 1, d⟩ ⟨p, i, d + 1⟩

/-- Modelled from the spec: the states a run that issues `N` query units
under bound `K` can pass through, starting from all `N` units queued. -/
inductive SchedReachable (K N : Nat) : SchedState → Prop where
  | init : SchedReachable K N ⟨N, 0, 0⟩
  | step {s t : SchedState} : SchedReachable K N s → SchedStep K s t → SchedReachable K N t

/-- Number of query units a validation pass over `p` issues in the given
mode: one per explore in batch mode, one per dimension otherwise. -/
def schedUnitCount (batch : Bool) (p : Project) : Nat :=
  if batch then _count_explores p else total_dimensions p

/-- Concrete dimension fixtures used by the witnesses. -/
def dimW1 : Dimension := { name := "d1", url := "/d1", ignore := false, errored := false, error := none }

def dimW2 : Dimension := { name := "d2", url := "/d2", ignore := false, errored := false, error := none }

def dimW3 : Dimension := { name := "d3", url := "/d3", ignore := true, errored := false, error := none }

/-- Concrete hierarchy fixture: one model `a` in project `p` with one
explore `x` holding three dimensions. -/
def projW : Project :=
  { name := "p",
    models := [{ name := "a", project := "p", errored := false,
                 explores := [{ name := "x", errored := false, error := none,
                                dimensions := [dimW1, dimW2, { dimW3 with ignore := false }] }] }] }

/-- Concrete API error fixture for classifier witnesses. -/
def apiErrW : ApiError := { message_details := "boom", sql_error_loc := some 42 }

/-- Concrete model fixture with no explores, for resolution witnesses. -/
def modelA : Model := { name := "a", project := "p", explores := [], errored := false }

/-- Concrete hierarchy fixture with two explores of one dimension each,
for scheduler witnesses. -/
def projW2 : Project :=
  { name := "p",
    models := [{ name := "a", project := "p", errored := false,
                 explores := [{ name := "x", errored := false, error := none,
                                dimensions := [dimW1] },
                              { name := "y", errored := false, error := none,
                                dimensions := [dimW2] }] }] }

/-- Concrete client fixture: project `p` exposes one model `a` with two
explores `x` and `y` and no dimensions. -/
def clientAxy : ClientData :=
  { base_url := "https://company.looker.com",
    models_json := [{ name := "a", project := "p", errored := false,
                      explores := [{ name := "x", dimensions := [], errored := false, error := none },
                                   { name := "y", dimensions := [], errored := false, error := none }] }],
    dimensions_json := fun _ _ => [] }

/-- Concrete client fixture whose dimension listing for `a.x` holds one
ignored and two kept dimensions. -/
def clientIg : ClientData :=
  { clientAxy with dimensions_json := fun _ _ => [dimW1, dimW3, dimW2] }

/-- Concrete oracle fixture whose every query succeeds. -/
def oracleOk : Oracle := fun _ _ _ => .success

/-- Concrete client fixture whose model listing is empty. -/
def clientEmpty : ClientData :=
  { base_url := "https://company.looker.com", models_json := [], dimensions_json := fun _ _ => [] }

/-! ### List helpers -/

theorem updateAt_length {α : Type} (i : Nat) (f : α → α) (l : List α) :
    (updateAt i f l).length = l.length := by
  induction l generalizing i with
  | nil => simp [updateAt]
  | cons x xs ih =>
    cases i with
    | zero => rfl
    | succ n => simp [updateAt, ih]

theorem getD_map {α β : Type} (f : α → β) (l : List α) (i : Nat) (d : α) :
    (l.map f).getD i (f d) = f (l.getD i d) := by
  induction l generalizing i with
  | nil => rfl
  | cons x xs ih =>
    cases i with
    | zero => rfl
    | succ n => simp only [List.map_cons, List.getD_cons_succ]; exact ih n

theorem map_updateAt {α β : Type} (g : α → β) (f : α → α) (h : ∀ x, g (f x) = g x)
    (i : Nat) (l : List α) : (updateAt i f l).map g = l.map g := by
  induction l generalizing i with
  | nil => simp [updateAt]
  | cons x xs ih =>
    cases i with
    | zero => simp [updateAt, h]
    | succ n => simp [updateAt, ih]

theorem updateAt_getD_ne {α : Type} (i j : Nat) (f : α → α) (l : List α) (d : α)
    (h : j ≠ i) : (updateAt i f l).getD j d = l.getD j d := by
  induction l generalizing i j with
  | nil => simp [updateAt]
  | cons x xs ih =>
    cases i with
    | zero =>
      cases j with
      | zero => exact absurd rfl h
      | succ m => simp [updateAt]
    | succ n =>
      cases j with
      | zero => simp [updateAt]
      | succ m =>
        simp only [updateAt, List.getD_cons_succ]
        exact ih n m (fun hh => h (by rw [hh]))

theorem updateAt_getD_self {α : Type} (i : Nat) (f : α → α) (l : List α) (d : α)
    (h : i < l.length) : (updateAt i f l).getD i d = f (l.getD i d) := by
  induction l generalizing i with
  | nil => simp at h
  | cons x xs ih =>
    cases i with
    | zero => rfl
    | succ n =>
      simp only [updateAt, List.getD_cons_succ]
      exact ih n (by simpa using h)

/-! ### Selector parsing (C1) -/

theorem splitDot_ne_nil (cs : List Char) : splitDot cs ≠ [] := by
  cases cs with
  | nil => simp [splitDot]
  | cons c rest =>
    rw [splitDot]
    by_cases hc : c = '.'
    · simp [hc]
    · rw [if_neg hc]
      cases splitDot rest <;> simp

theorem splitDot_length (cs : List Char) : (splitDot cs).length = cs.count '.' + 1 := by
  induction cs with
  | nil => rfl
  | cons c rest ih =>
    rw [splitDot]
    by_cases hc : c = '.'
    · rw [if_pos hc, List.length_cons, ih, List.count_cons]
      simp [hc]
    · rw [if_neg hc]
      cases hr : splitDot rest with
      | nil => exact absurd hr (splitDot_ne_nil rest)
      | cons t ts =>
        have h2 := ih
        rw [hr] at h2
        rw [List.count_cons]
        simp only [List.length_cons] at h2 ⊢
        simp [hc, h2]

theorem parse_from_ok_iff (ss : List String) : ∀ (sel : Selection),
    (∃ r, parse_selectors_from sel ss = .ok r) ↔
      ∀ s ∈ ss, (splitDot s.toList).length = 2 := by
  induction ss with
  | nil => intro sel; simp [parse_selectors_from]
  | cons s rest ih =>
    intro sel
    cases h : splitDot s.toList with
    | nil =>
      simp only [parse_selectors_from, h]
      constructor
      · rintro ⟨r, hr⟩; exact absurd hr (by simp)
      · intro hall
        exact absurd (hall s (List.mem_cons_self s rest)) (by rw [h]; simp)
    | cons m t =>
      cases t with
      | nil =>
        simp only [parse_selectors_from, h]
        constructor
        · rintro ⟨r, hr⟩; exact absurd hr (by simp)
        · intro hall
          exact absurd (hall s (List.mem_cons_self s rest)) (by rw [h]; simp)
      | cons e u =>
        cases u with
        | nil =>
          simp only [parse_selectors_from, h]
          rw [ih]
          constructor
          · intro hall x hx
            rcases List.mem_cons.mp hx with rfl | hx'
            · rw [h]; rfl
            · exact hall x hx'
          · intro hall x hx
            exact hall x (List.mem_cons_of_mem _ hx)
        | cons x v =>
          simp only [parse_selectors_from, h]
          constructor
          · rintro ⟨r, hr⟩; exact absurd hr (by simp)
          · intro hall
            exact absurd (hall s (List.mem_cons_self s rest)) (by rw [h]; simp)

theorem parse_from_error (ss : List String) : ∀ (sel : Selection) (err : PyError),
    parse_selectors_from sel ss = .error err →
    ∃ s ∈ ss, (splitDot s.toList).length ≠ 2 ∧ err = .configError s := by
  induction ss with
  | nil => intro sel err h; simp [parse_selectors_from] at h
  | cons s rest ih =>
    intro sel err h
    cases hs : splitDot s.toList with
    | nil =>
      simp only [parse_selectors_from, hs] at h
      exact ⟨s, List.mem_cons_self s rest, by rw [hs]; simp, by cases h; rfl⟩
    | cons m t =>
      cases t with
      | nil =>
        simp only [parse_selectors_from, hs] at h
        exact ⟨s, List.mem_cons_self s rest, by rw [hs]; simp, by cases h; rfl⟩
      | cons e u =>
        cases u with
        | nil =>
          simp only [parse_selectors_from, hs] at h
          obtain ⟨s', hs', hlen, herr⟩ := ih _ _ h
          exact ⟨s', List.mem_cons_of_mem _ hs', hlen, herr⟩
        | cons x v =>
          simp only [parse_selectors_from, hs] at h
          exact ⟨s, List.mem_cons_self s rest, by rw [hs]; simp, by cases h; rfl⟩

/-- C1 (amended): selector parsing succeeds exactly when every selector
contains exactly one dot — that is, splits into exactly two (possibly
empty) dot-separated tokens; a selector with no dot or more than one dot
makes parsing fail with the configuration error that names the offending
selector, whose rendered message embeds that selector and the expected
model_name.explore_name format. (The original claim additionally
required both tokens to be non-empty; the counterexample shows empty
tokens are accepted.) -/
theorem C1_parse_selectors_shape (ss : List String) :
    ((∃ r, parse_selectors ss = .ok r) ↔ ∀ s ∈ ss, s.toList.count '.' = 1) ∧
    (∀ err, parse_selectors ss = .error err →
      ∃ s ∈ ss, s.toList.count '.' ≠ 1 ∧ err = .configError s ∧
        ∃ post, render_config_error s = "Explore selector " ++ s ++ post) := by
  have hlen : ∀ s : String, ((splitDot s.toList).length = 2 ↔ s.toList.count '.' = 1) := by
    intro s
    rw [splitDot_length]
    omega
  constructor
  · rw [show parse_selectors ss = parse_selectors_from [] ss from rfl, parse_from_ok_iff]
    exact ⟨fun h s hs => (hlen s).mp (h s hs), fun h s hs => (hlen s).mpr (h s hs)⟩
  · intro err herr
    obtain ⟨s, hmem, hne, hcfg⟩ := parse_from_error ss [] err herr
    exact ⟨s, hmem, fun hc => hne ((hlen s).mpr hc), hcfg,
      " is not valid. Instead, use the format model_name.explore_name. Use model_name.* to select all explores in a model.",
      rfl⟩

/-- C1 counterexample: the selector consisting of a dot with an empty
model token parses successfully (to the empty model name), although the
claim requires every shape with an empty token to fail. -/
theorem C1_parse_selectors_cex :
    parse_selectors [".x"] = .ok [("", ["x"])] := by rfl

/-- C1 witness: the success direction applied to a concrete well-formed
selector list. -/
theorem C1_parse_selectors_witness : ∃ r, parse_selectors ["a.b"] = .ok r :=
  (C1_parse_selectors_shape ["a.b"]).1.mpr (by decide)

/-! ### Name resolution (C4, C10) -/

theorem select_empty_from {α : Type} (projectName : String) (cls : α → String)
    (choices : List String) (name : α → String) (h : choices ≠ []) :
    _select projectName cls choices ([] : List α) name = .error .indexError := by
  unfold _select
  have h1 : choices.dedup ≠ [] := by
    simpa [List.dedup_eq_nil] using h
  have h2 : choices.dedup.filter (fun c => decide ¬(c ∈ ([] : List α).map name))
      = choices.dedup := by
    simp
  simp only [h2]
  rw [if_neg (by simpa [List.isEmpty_iff] using h1)]

theorem select_missing {α : Type} (projectName : String) (cls : α → String)
    (choices : List String) (a : α) (rest : List α) (name : α → String)
    (hmiss : ∃ c ∈ choices, ¬ c ∈ (a :: rest).map name) :
    _select projectName cls choices (a :: rest) name =
      .error (.selectionError (cls a)
        (choices.dedup.filter (fun c => decide ¬(c ∈ (a :: rest).map name)))
        projectName) := by
  unfold _select
  obtain ⟨c, hc, hcn⟩ := hmiss
  have hmem : c ∈ choices.dedup.filter (fun c => decide ¬(c ∈ (a :: rest).map name)) := by
    simp only [List.mem_filter, List.mem_dedup, decide_eq_true_eq]
    exact ⟨hc, hcn⟩
  have hne : choices.dedup.filter (fun c => decide ¬(c ∈ (a :: rest).map name)) ≠ [] := by
    intro hnil
    rw [hnil] at hmem
    exact absurd hmem (List.not_mem_nil c)
  rw [if_neg (by simpa [List.isEmpty_iff] using hne)]

theorem lookup_star_eq_none (sel : Selection) (h : ∀ kv ∈ sel, kv.1 ≠ "*") :
    sel.lookup "*" = none := by
  induction sel with
  | nil => rfl
  | cons kv rest ih =>
    cases kv with
    | mk k v =>
      have h1 : k ≠ "*" := h (k, v) (List.mem_cons_self _ _)
      have hbeq : ("*" == k) = false := by
        simp only [beq_eq_false_iff_ne]
        exact Ne.symm h1
      simp only [List.lookup, hbeq]
      exact ih (fun kv hkv => h kv (List.mem_cons_of_mem _ hkv))

theorem build_project_model_select_error (client : ClientData) (projectName : String)
    (selectors : List String) (sel : Selection) (e : PyError)
    (hp : parse_selectors selectors = .ok sel)
    (hnw : sel.lookup "*" = none)
    (hsel : _select projectName (fun _ : Model => "Model") (sel.map (fun kv => kv.1))
        (client.models_json.filter (fun m => m.project = projectName))
        (fun m => m.name) = .error e) :
    build_project client projectName selectors = .error e := by
  unfold build_project
  rw [hp]
  have hexp : expand_model_wildcard sel
      (client.models_json.filter (fun m => m.project = projectName)) = sel := by
    unfold expand_model_wildcard
    rw [hnw]
  simp only [hexp, hsel]

/-- C4 (amended): whenever the sequence being resolved against is
non-empty and some chosen name is absent from it, `_select` — the
resolution step both the model and the explore level of the hierarchy
build go through — fails with a single selection error whose missing-name
list holds exactly every absent chosen name (not only the first), whose
rendered message is plural-aware, and which propagates: a failing
model-level resolution makes the whole `build_project` fail rather than
proceed with the names that did resolve. (The original claim also covered
an empty discovered list; the counterexample shows that case crashes with
an index error instead of the selection error.) -/
theorem C4_selection_error_lists_all :
    (∀ {α : Type} (projectName : String) (cls : α → String) (choices : List String)
        (a : α) (rest : List α) (name : α → String),
      (∃ c ∈ choices, ¬ c ∈ (a :: rest).map name) →
      ∃ missing,
        _select projectName cls choices (a :: rest) name =
          .error (.selectionError (cls a) missing projectName) ∧
        missing ≠ [] ∧
        (∀ c, c ∈ missing ↔ (c ∈ choices ∧ ¬ c ∈ (a :: rest).map name)) ∧
        (missing.length = 1 →
          render_selection_error (cls a) missing projectName =
            cls a ++ " " ++ String.intercalate ", " missing
              ++ " not found in LookML for project " ++ projectName ++ ".") ∧
        (missing.length ≠ 1 →
          render_selection_error (cls a) missing projectName =
            cls a ++ "s" ++ " " ++ String.intercalate ", " missing
              ++ " not found in LookML for project " ++ projectName ++ ".")) ∧
    (∀ (client : ClientData) (projectName : String) (selectors : List String)
        (sel : Selection) (e : PyError),
      parse_selectors selectors = .ok sel →
      sel.lookup "*" = none →
      _select projectName (fun _ : Model => "Model") (sel.map (fun kv => kv.1))
        (client.models_json.filter (fun m => m.project = projectName))
        (fun m => m.name) = .error e →
      build_project client projectName selectors = .error e) := by
  constructor
  · intro α projectName cls choices a rest name hmiss
    refine ⟨choices.dedup.filter (fun c => decide ¬(c ∈ (a :: rest).map name)),
      select_missing projectName cls choices a rest name hmiss, ?_, ?_, ?_, ?_⟩
    · obtain ⟨c, hc, hcn⟩ := hmiss
      have hmem : c ∈ choices.dedup.filter (fun c => decide ¬(c ∈ (a :: rest).map name)) := by
        simp only [List.mem_filter, List.mem_dedup, decide_eq_true_eq]
        exact ⟨hc, hcn⟩
      intro hh
      rw [hh] at hmem
      exact absurd hmem (List.not_mem_nil c)
    · intro c
      simp [List.mem_filter, List.mem_dedup]
    · intro hone
      unfold render_selection_error
      rw [if_pos hone, String.append_empty]
    · intro hone
      unfold render_selection_error
      rw [if_neg hone]
  · exact fun client projectName selectors sel e hp hnw hsel =>
      build_project_model_select_error client projectName selectors sel e hp hnw hsel

/-- C4 counterexample: selection names model `a`, but model discovery
returns nothing for the project; the build fails with the index error
raised by `select_from[0]`, not with a selection error listing `a`. -/
theorem C4_selection_error_cex :
    build_project clientEmpty "p" ["a.b"] = .error .indexError := by rfl

/-- C4 witness: resolving choices `z, w, a` against the single available
model `a` yields the selection error listing both missing names. -/
theorem C4_selection_error_witness :
    ∃ missing,
      _select "p" (fun _ : Model => "Model") ["z", "w", "a"]
          (modelA :: ([] : List Model)) (fun m => m.name) =
        .error (.selectionError "Model" missing "p") ∧
      missing ≠ [] ∧
      (∀ c, c ∈ missing ↔ (c ∈ ["z", "w", "a"] ∧
        ¬ c ∈ ((modelA :: ([] : List Model)).map (fun m => m.name)))) ∧
      (missing.length = 1 →
        render_selection_error "Model" missing "p" =
          "Model" ++ " " ++ String.intercalate ", " missing
            ++ " not found in LookML for project " ++ "p" ++ ".") ∧
      (missing.length ≠ 1 →
        render_selection_error "Model" missing "p" =
          "Model" ++ "s" ++ " " ++ String.intercalate ", " missing
            ++ " not found in LookML for project " ++ "p" ++ ".") :=
  C4_selection_error_lists_all.1 "p" (fun _ => "Model") ["z", "w", "a"]
    modelA [] (fun m => m.name) ⟨"z", by decide, by decide⟩

/-- C10: with a non-empty, wildcard-free selection and a project for
which model discovery returns no models, the hierarchy build fails with
the out-of-bounds access of `select_from[0]` (an `IndexError`) instead
of the selection error that would name the missing entities. -/
theorem C10_empty_discovery_index_error (client : ClientData) (projectName : String)
    (selectors : List String) (sel : Selection)
    (hp : parse_selectors selectors = .ok sel)
    (hne : sel ≠ [])
    (hnw : ∀ kv ∈ sel, kv.1 ≠ "*")
    (hempty : client.models_json.filter (fun m => m.project = projectName) = []) :
    build_project client projectName selectors = .error .indexError := by
  apply build_project_model_select_error client projectName selectors sel _ hp
    (lookup_star_eq_none sel hnw)
  rw [hempty]
  apply select_empty_from
  simpa using hne

/-- C10 witness: a concrete empty discovery with the selection naming
model `m`. -/
theorem C10_empty_discovery_witness :
    build_project clientEmpty "proj" ["m.e"] = .error .indexError :=
  C10_empty_discovery_index_error clientEmpty "proj" ["m.e"] [("m", ["e"])]
    rfl (by simp) (by simp) rfl

/-! ### Wildcard expansion (C5) -/

/-- C5: parsing `a.*` and `a.x` and building against a model `a` whose
discovered explores are `x` and `y` selects exactly the explores `x` and
`y`: the wildcard token is removed and replaced by every discovered
explore name, the explicit duplicate `a.x` is absorbed by the set
semantics, the result is the same when the selectors are supplied in the
other order or parsed twice over, and the parsed selection and the
explore-level expansion step show the wildcard removal directly. -/
theorem C5_wildcard_expansion :
    (build_project clientAxy "p" ["a.*", "a.x"]).map
        (fun proj => proj.models.map (fun m => (m.name, m.explores.map (fun e => e.name))))
      = .ok [("a", ["x", "y"])] ∧
    build_project clientAxy "p" ["a.x", "a.*"] = build_project clientAxy "p" ["a.*", "a.x"] ∧
    build_project clientAxy "p" ["a.*", "a.x", "a.*", "a.x"] =
      build_project clientAxy "p" ["a.*", "a.x"] ∧
    selGet ((parse_selectors ["a.*", "a.x"]).toOption.getD []) "a" = ["*", "x"] ∧
    expand_wildcard ["*", "x"] ["x", "y"] = ["x", "y"] :=
  ⟨rfl, rfl, rfl, rfl, rfl⟩

/-! ### Ignored dimensions (C6) -/

theorem select_ok_sub {α : Type} {projectName : String} {cls : α → String}
    {choices : List String} {l : List α} {name : α → String} {res : List α}
    (h : _select projectName cls choices l name = .ok res) : ∀ x ∈ res, x ∈ l := by
  simp only [_select] at h
  by_cases hemp : (choices.dedup.filter (fun c => decide ¬(c ∈ l.map name))).isEmpty = true
  · rw [if_pos hemp] at h
    cases h
    intro x hx
    exact (List.mem_filter.mp hx).1
  · rw [if_neg hemp] at h
    cases l with
    | nil => cases h
    | cons a rest => cases h

theorem build_model_ok {client : ClientData} {projectName : String} {sel : Selection}
    {model m' : Model} (h : build_model client projectName sel model = .ok m') :
    ∃ es, _select projectName (fun _ => "Explore")
        (expand_wildcard (selGet sel model.name) (model.explores.map (fun e => e.name)))
        model.explores (fun e => e.name) = .ok es ∧
      m' = { model with explores := es.map (fun e =>
        { e with dimensions := e.dimensions
            ++ selected_dimension_list client model.name e }) } := by
  unfold build_model at h
  cases hs : _select projectName (fun _ => "Explore")
      (expand_wildcard (selGet sel model.name) (model.explores.map (fun e => e.name)))
      model.explores (fun e => e.name) with
  | error e =>
    simp only [hs] at h
    cases h
  | ok es =>
    simp only [hs] at h
    cases h
    exact ⟨es, rfl, rfl⟩

theorem build_models_ok {client : ClientData} {projectName : String} {sel : Selection} :
    ∀ {ms ms' : List Model},
    build_models client projectName sel ms = .ok ms' →
    ∀ m' ∈ ms', ∃ m ∈ ms, build_model client projectName sel m = .ok m' := by
  intro ms
  induction ms with
  | nil =>
    intro ms' h
    cases h
    intro m' hm'
    exact absurd hm' (List.not_mem_nil m')
  | cons m rest ih =>
    intro ms' h
    unfold build_models at h
    cases hbm : build_model client projectName sel m with
    | error e =>
      simp only [hbm] at h
      cases h
    | ok m1 =>
      simp only [hbm] at h
      cases hbms : build_models client projectName sel rest with
      | error e =>
        simp only [hbms] at h
        cases h
      | ok ms1 =>
        simp only [hbms] at h
        cases h
        intro m' hm'
        rcases List.mem_cons.mp hm' with rfl | hm''
        · exact ⟨m, List.mem_cons_self m rest, hbm⟩
        · obtain ⟨m0, hm0, hb0⟩ := ih hbms m' hm''
          exact ⟨m0, List.mem_cons_of_mem m hm0, hb0⟩

theorem build_project_ok {client : ClientData} {projectName : String}
    {selectors : List String} {proj : Project}
    (h : build_project client projectName selectors = .ok proj) :
    ∃ sel0 selm ms,
      parse_selectors selectors = .ok sel0 ∧
      _select projectName (fun _ => "Model")
        ((expand_model_wildcard sel0
          (client.models_json.filter (fun m => m.project = projectName))).map (fun kv => kv.1))
        (client.models_json.filter (fun m => m.project = projectName))
        (fun m => m.name) = .ok selm ∧
      build_models client projectName
        (expand_model_wildcard sel0
          (client.models_json.filter (fun m => m.project = projectName))) selm = .ok ms ∧
      proj = { name := projectName, models := ms } := by
  unfold build_project at h
  cases hp : parse_selectors selectors with
  | error e =>
    simp only [hp] at h
    cases h
  | ok sel0 =>
    simp only [hp] at h
    cases hsel : _select projectName (fun _ => "Model")
        ((expand_model_wildcard sel0
          (client.models_json.filter (fun m => m.project = projectName))).map (fun kv => kv.1))
        (client.models_json.filter (fun m => m.project = projectName))
        (fun m => m.name) with
    | error e =>
      simp only [hsel] at h
      cases h
    | ok selm =>
      simp only [hsel] at h
      cases hbm : build_models client projectName
          (expand_model_wildcard sel0
            (client.models_json.filter (fun m => m.project = projectName))) selm with
      | error e =>
        simp only [hbm] at h
        cases h
      | ok ms =>
        simp only [hbm] at h
        cases h
        exact ⟨sel0, selm, ms, rfl, hsel, hbm, rfl⟩

/-- C6: when the model listing supplies explores without dimensions (as
`listModels` does — dimensions come only from the dimension listing),
every dimension of every explore of the built hierarchy has
`ignore = false`: a listed dimension with `ignore = true` is dropped by
the build and can never appear in an explore's dimension list, so no
query unit and no SqlError can be produced for it in either mode (query
units draw their dimensions exclusively from `explore.dimensions`). -/
theorem C6_ignored_dimension_excluded (client : ClientData) (projectName : String)
    (selectors : List String) (proj : Project)
    (hclean : ∀ m ∈ client.models_json, ∀ e ∈ m.explores, e.dimensions = [])
    (hb : build_project client projectName selectors = .ok proj) :
    ∀ m ∈ proj.models, ∀ e ∈ m.explores, ∀ d ∈ e.dimensions, d.ignore = false := by
  obtain ⟨sel0, selm, ms, hp, hsel, hbm, rfl⟩ := build_project_ok hb
  intro m hm e he d hd
  obtain ⟨m0, hm0, hbmodel⟩ := build_models_ok hbm m hm
  obtain ⟨es, hes, rfl⟩ := build_model_ok hbmodel
  obtain ⟨e0, he0, rfl⟩ := List.mem_map.mp he
  have he0m : e0 ∈ m0.explores := select_ok_sub hes e0 he0
  have hm0m : m0 ∈ client.models_json :=
    List.mem_of_mem_filter (select_ok_sub hsel m0 hm0)
  have hdim0 : e0.dimensions = [] := hclean m0 hm0m e0 he0m
  simp only [hdim0, List.nil_append] at hd
  have := (List.mem_filter.mp hd).2
  simpa using this

/-- C6 witness: the dimension listing of `clientIg` contains an ignored
dimension; the first dimension the built fixture hierarchy holds is not
ignored, by the invariant applied at the concrete build. -/
theorem C6_ignored_dimension_witness :
    (dimensionAt ((build_project clientIg "p" ["a.x"]).toOption.getD default) 0 0 0).ignore
      = false :=
  C6_ignored_dimension_excluded clientIg "p" ["a.x"]
    ((build_project clientIg "p" ["a.x"]).toOption.getD default) (by decide) rfl
    (modelAt ((build_project clientIg "p" ["a.x"]).toOption.getD default) 0) (by decide)
    (exploreAt ((build_project clientIg "p" ["a.x"]).toOption.getD default) 0 0) (by decide)
    (dimensionAt ((build_project clientIg "p" ["a.x"]).toOption.getD default) 0 0 0) (by decide)

/-! ### Error attribution (C2, C3) -/

/-- C2: in batch mode, an error payload for the single query unit of the
explore at `(mi, ei)` produces exactly one `SqlError`, whose path is the
model name and the explore name joined by a slash; the explore's `error`
and `errored` and the model's `errored` are set, while the explore's
dimension list — and so every dimension's `errored` flag and `error`
field — and every other explore and model are left unchanged. -/
theorem C2_batch_error_attribution (p : Project) (mi ei : Nat) (e : ApiError)
    (es : List ApiError) (sql : String)
    (hmi : mi < p.models.length)
    (hei : ei < (modelAt p mi).explores.length) :
    ∃ p' err,
      _query_explore p mi ei (.payload (e :: es) sql) = .ok (p', some err) ∧
      err.path = (modelAt p mi).name ++ "/" ++ (exploreAt p mi ei).name ∧
      (modelAt p' mi).errored = true ∧
      (exploreAt p' mi ei).errored = true ∧
      (exploreAt p' mi ei).error = some err ∧
      (exploreAt p' mi ei).dimensions = (exploreAt p mi ei).dimensions ∧
      (∀ ej, ej ≠ ei → exploreAt p' mi ej = exploreAt p mi ej) ∧
      (∀ mj, mj ≠ mi → modelAt p' mj = modelAt p mj) := by
  simp only [modelAt, exploreAt] at hei ⊢
  refine ⟨_, _, rfl, rfl, ?_, ?_, ?_, ?_, ?_, ?_⟩
  · simp only [updateAt_getD_self _ _ _ _ hmi]
  · simp only [updateAt_getD_self _ _ _ _ hmi, updateAt_getD_self _ _ _ _ hei]
  · simp only [updateAt_getD_self _ _ _ _ hmi, updateAt_getD_self _ _ _ _ hei]
  · simp only [updateAt_getD_self _ _ _ _ hmi, updateAt_getD_self _ _ _ _ hei]
  · intro ej hej
    simp only [updateAt_getD_self _ _ _ _ hmi, updateAt_getD_ne ei ej _ _ _ hej]
  · intro mj hmj
    simp only [updateAt_getD_ne mi mj _ _ _ hmj]

/-- C2 witness: the batch classifier applied to the concrete fixture
hierarchy and a concrete error payload. -/
theorem C2_batch_error_witness :
    ∃ p' err,
      _query_explore projW 0 0 (.payload (apiErrW :: []) "SELECT 1") = .ok (p', some err) ∧
      err.path = (modelAt projW 0).name ++ "/" ++ (exploreAt projW 0 0).name ∧
      (modelAt p' 0).errored = true ∧
      (exploreAt p' 0 0).errored = true ∧
      (exploreAt p' 0 0).error = some err ∧
      (exploreAt p' 0 0).dimensions = (exploreAt projW 0 0).dimensions ∧
      (∀ ej, ej ≠ 0 → exploreAt p' 0 ej = exploreAt projW 0 ej) ∧
      (∀ mj, mj ≠ 0 → modelAt p' mj = modelAt projW mj) :=
  C2_batch_error_attribution projW 0 0 apiErrW [] "SELECT 1" (by decide) (by decide)

/-- C3: in per-dimension mode, an error payload for the query unit of
the dimension at `(mi, ei, di)` sets `errored` on exactly that
dimension, its explore and its model, attaches the `SqlError` — whose
path is the model name and the dimension name joined by a slash, and
whose URL is the dimension's — to that dimension, leaves the explore's
`error` field untouched, and leaves every sibling dimension, sibling
explore and other model unchanged. -/
theorem C3_dimension_error_attribution (p : Project) (mi ei di : Nat) (e : ApiError)
    (es : List ApiError) (sql : String)
    (hmi : mi < p.models.length)
    (hei : ei < (modelAt p mi).explores.length)
    (hdi : di < (exploreAt p mi ei).dimensions.length) :
    ∃ p' err,
      _query_dimension p mi ei di (.payload (e :: es) sql) = .ok (p', some err) ∧
      err.path = (modelAt p mi).name ++ "/" ++ (dimensionAt p mi ei di).name ∧
      err.url = some (dimensionAt p mi ei di).url ∧
      (modelAt p' mi).errored = true ∧
      (exploreAt p' mi ei).errored = true ∧
      (dimensionAt p' mi ei di).errored = true ∧
      (dimensionAt p' mi ei di).error = some err ∧
      (exploreAt p' mi ei).error = (exploreAt p mi ei).error ∧
      (∀ dj, dj ≠ di → dimensionAt p' mi ei dj = dimensionAt p mi ei dj) ∧
      (∀ ej, ej ≠ ei → exploreAt p' mi ej = exploreAt p mi ej) ∧
      (∀ mj, mj ≠ mi → modelAt p' mj = modelAt p mj) := by
  simp only [modelAt, exploreAt, dimensionAt] at hei hdi ⊢
  refine ⟨_, _, rfl, rfl, rfl, ?_, ?_, ?_, ?_, ?_, ?_, ?_, ?_⟩
  · simp only [updateAt_getD_self _ _ _ _ hmi]
  · simp only [updateAt_getD_self _ _ _ _ hmi, updateAt_getD_self _ _ _ _ hei]
  · simp only [updateAt_getD_self _ _ _ _ hmi, updateAt_getD_self _ _ _ _ hei,
      updateAt_getD_self _ _ _ _ hdi]
  · simp only [updateAt_getD_self _ _ _ _ hmi, updateAt_getD_self _ _ _ _ hei,
      updateAt_getD_self _ _ _ _ hdi]
  · simp only [updateAt_getD_self _ _ _ _ hmi, updateAt_getD_self _ _ _ _ hei]
  · intro dj hdj
    simp only [updateAt_getD_self _ _ _ _ hmi, updateAt_getD_self _ _ _ _ hei,
      updateAt_getD_ne di dj _ _ _ hdj]
  · intro ej hej
    simp only [updateAt_getD_self _ _ _ _ hmi, updateAt_getD_ne ei ej _ _ _ hej]
  · intro mj hmj
    simp only [updateAt_getD_ne mi mj _ _ _ hmj]

/-- C3 witness: the per-dimension classifier applied to the concrete
fixture hierarchy, targeting its middle dimension. -/
theorem C3_dimension_error_witness :
    ∃ p' err,
      _query_dimension projW 0 0 1 (.payload (apiErrW :: []) "SELECT 1") = .ok (p', some err) ∧
      err.path = (modelAt projW 0).name ++ "/" ++ (dimensionAt projW 0 0 1).name ∧
      err.url = some (dimensionAt projW 0 0 1).url ∧
      (modelAt p' 0).errored = true ∧
      (exploreAt p' 0 0).errored = true ∧
      (dimensionAt p' 0 0 1).errored = true ∧
      (dimensionAt p' 0 0 1).error = some err ∧
      (exploreAt p' 0 0).error = (exploreAt projW 0 0).error ∧
      (∀ dj, dj ≠ 1 → dimensionAt p' 0 0 dj = dimensionAt projW 0 0 dj) ∧
      (∀ ej, ej ≠ 0 → exploreAt p' 0 ej = exploreAt projW 0 ej) ∧
      (∀ mj, mj ≠ 0 → modelAt p' mj = modelAt projW mj) :=
  C3_dimension_error_attribution projW 0 0 1 apiErrW [] "SELECT 1"
    (by decide) (by decide) (by decide)

/-! ### Protocol violations (C7) -/

theorem query_explore_malformed (p : Project) (mi ei : Nat) (r : QueryResult)
    (h : malformedResult r = true) :
    _query_explore p mi ei r =
      .error (.protocolError ((modelAt p mi).name ++ "/" ++ (exploreAt p mi ei).name) r) := by
  cases r with
  | success => simp [malformedResult] at h
  | payload errs sql =>
    cases errs with
    | nil => rfl
    | cons e es => simp [malformedResult] at h
  | malformed raw => rfl

theorem query_dimension_malformed (p : Project) (mi ei di : Nat) (r : QueryResult)
    (h : malformedResult r = true) :
    _query_dimension p mi ei di r =
      .error (.protocolError
        ((modelAt p mi).name ++ "/" ++ (dimensionAt p mi ei di).name) r) := by
  cases r with
  | success => simp [malformedResult] at h
  | payload errs sql =>
    cases errs with
    | nil => rfl
    | cons e es => simp [malformedResult] at h
  | malformed raw => rfl

theorem query_explore_error_shape {p : Project} {mi ei : Nat} {r : QueryResult} {e : PyError}
    (h : _query_explore p mi ei r = .error e) :
    ∃ path raw, e = .protocolError path raw ∧ malformedResult raw = true := by
  cases r with
  | success =>
    simp only [_query_explore] at h
    cases h
  | payload errs sql =>
    cases errs with
    | nil =>
      simp only [_query_explore] at h
      cases h
      exact ⟨_, _, rfl, rfl⟩
    | cons a as =>
      simp only [_query_explore] at h
      cases h
  | malformed raw =>
    simp only [_query_explore] at h
    cases h
    exact ⟨_, _, rfl, rfl⟩

theorem query_dimension_error_shape {p : Project} {mi ei di : Nat} {r : QueryResult}
    {e : PyError} (h : _query_dimension p mi ei di r = .error e) :
    ∃ path raw, e = .protocolError path raw ∧ malformedResult raw = true := by
  cases r with
  | success =>
    simp only [_query_dimension] at h
    cases h
  | payload errs sql =>
    cases errs with
    | nil =>
      simp only [_query_dimension] at h
      cases h
      exact ⟨_, _, rfl, rfl⟩
    | cons a as =>
      simp only [_query_dimension] at h
      cases h
  | malformed raw =>
    simp only [_query_dimension] at h
    cases h
    exact ⟨_, _, rfl, rfl⟩

theorem validate_dims_error_shape (oracle : Oracle) (mi ei : Nat) :
    ∀ (idxs : List Nat) (p : Project) (e : PyError),
    (_validate_dims oracle p mi ei idxs).2 = .error e →
    ∃ path raw, e = .protocolError path raw ∧ malformedResult raw = true := by
  intro idxs
  induction idxs with
  | nil =>
    intro p e h
    simp only [_validate_dims] at h
    cases h
  | cons di rest ih =>
    intro p e h
    simp only [_validate_dims, _query_dimension_run, _run_async_query] at h
    cases hq : _query_dimension p mi ei di
        (oracle (modelAt p mi).name (exploreAt p mi ei).name
          [(dimsNamesAt p mi ei).getD di ""]) with
    | error e' =>
      rw [hq] at h
      cases h
      exact query_dimension_error_shape hq
    | ok pe =>
      rw [hq] at h
      cases pe with
      | mk p' oe =>
        simp only at h
        cases hrec : _validate_dims oracle p' mi ei rest with
        | mk reqs r' =>
          rw [hrec] at h
          cases r' with
          | error e2 =>
            simp only [Except.map] at h
            cases h
            exact ih p' _ (by rw [hrec])
          | ok pe' =>
            simp only [Except.map] at h
            cases h

theorem validate_explore_error_shape (oracle : Oracle) (batch : Bool) (p : Project)
    (mi ei : Nat) (e : PyError)
    (h : (_validate_explore oracle batch p mi ei).2 = .error e) :
    ∃ path raw, e = .protocolError path raw ∧ malformedResult raw = true := by
  cases batch with
  | false =>
    exact validate_dims_error_shape oracle mi ei (List.range (dimCountAt p mi ei)) p e h
  | true =>
    simp only [_validate_explore, _query_explore_run, _run_async_query] at h
    cases hq : _query_explore p mi ei
        (oracle (modelAt p mi).name (exploreAt p mi ei).name (dimsNamesAt p mi ei)) with
    | error e' =>
      rw [hq] at h
      simp only [Except.map] at h
      cases h
      exact query_explore_error_shape hq
    | ok pe =>
      rw [hq] at h
      simp only [Except.map] at h
      cases h

theorem validate_go_error_shape (oracle : Oracle) (batch : Bool) :
    ∀ (idxs : List (Nat × Nat)) (p : Project) (e : PyError),
    (validate_go oracle batch p idxs).2 = .error e →
    ∃ path raw, e = .protocolError path raw ∧ malformedResult raw = true := by
  intro idxs
  induction idxs with
  | nil =>
    intro p e h
    simp only [validate_go] at h
    cases h
  | cons me rest ih =>
    intro p e h
    cases me with
    | mk mi ei =>
      simp only [validate_go] at h
      cases hve : (_validate_explore oracle batch p mi ei).2 with
      | error e' =>
        rw [show _validate_explore oracle batch p mi ei =
            ((_validate_explore oracle batch p mi ei).1, .error e') from by
          rw [← hve]] at h
        simp only at h
        cases h
        exact validate_explore_error_shape oracle batch p mi ei _ hve
      | ok pe =>
        rw [show _validate_explore oracle batch p mi ei =
            ((_validate_explore oracle batch p mi ei).1, .ok pe) from by
          rw [← hve]] at h
        cases pe with
        | mk p' errs =>
          simp only at h
          cases hrec : validate_go oracle batch p' rest with
          | mk reqs r' =>
            rw [hrec] at h
            cases r' with
            | error e2 =>
              simp only [Except.map] at h
              cases h
              exact ih p' _ (by rw [hrec])
            | ok pe' =>
              simp only [Except.map] at h
              cases h

/-- C7: a raw result that is neither a success marker (a list) nor a
dict carrying a non-empty error payload makes the classifier of either
mode abort with the protocol error naming the offending model/explore
(or model/dimension) together with the raw payload; and whenever a
validation run aborts, the exception is such a protocol error and the
run returns it instead of any accumulated SqlError list, so no SqlError
is appended after the abort. -/
theorem C7_protocol_error_abort :
    (∀ (p : Project) (mi ei : Nat) (r : QueryResult), malformedResult r = true →
      _query_explore p mi ei r =
        .error (.protocolError ((modelAt p mi).name ++ "/" ++ (exploreAt p mi ei).name) r)) ∧
    (∀ (p : Project) (mi ei di : Nat) (r : QueryResult), malformedResult r = true →
      _query_dimension p mi ei di r =
        .error (.protocolError
          ((modelAt p mi).name ++ "/" ++ (dimensionAt p mi ei di).name) r)) ∧
    (∀ (oracle : Oracle) (batch : Bool) (p : Project) (e : PyError),
      (validate oracle batch p).2 = .error e →
      ∃ path raw, e = .protocolError path raw ∧ malformedResult raw = true) :=
  ⟨query_explore_malformed, query_dimension_malformed,
   fun oracle batch p e h =>
     validate_go_error_shape oracle batch (explore_index_list p) p e h⟩

/-- C7 witness: a malformed raw result for the fixture explore aborts
with the protocol error naming the unit and carrying the payload. -/
theorem C7_protocol_error_witness :
    _query_explore projW 0 0 (.malformed "surprise") =
      .error (.protocolError ((modelAt projW 0).name ++ "/" ++ (exploreAt projW 0 0).name)
        (.malformed "surprise")) :=
  C7_protocol_error_abort.1 projW 0 0 (.malformed "surprise") rfl

/-! ### Counting and shape preservation (C8, C9) -/

theorem foldl_add_map_sum {α : Type} (f : α → Nat) (l : List α) : ∀ (acc : Nat),
    l.foldl (fun a x => a + f x) acc = acc + (l.map f).sum := by
  induction l with
  | nil => intro acc; simp
  | cons x xs ih =>
    intro acc
    simp only [List.foldl_cons, List.map_cons, List.sum_cons]
    rw [ih]
    omega

theorem map_range_getD {α β : Type} (l : List α) (d : α) (f : α → β) :
    (List.range l.length).map (fun i => f (l.getD i d)) = l.map f := by
  induction l with
  | nil => rfl
  | cons a t ih =>
    rw [List.length_cons, List.range_succ_eq_map]
    simp only [List.map_cons, List.map_map]
    rw [show ((fun i => f ((a :: t).getD i d)) ∘ Nat.succ) = (fun i => f (t.getD i d)) from rfl]
    rw [ih]
    rfl

theorem sum_map_one {α : Type} (l : List α) : (l.map (fun _ => 1)).sum = l.length := by
  induction l with
  | nil => rfl
  | cons a t ih =>
    simp only [List.map_cons, List.sum_cons, List.length_cons, ih]
    omega

theorem sum_map_flatMap {α β : Type} (l : List α) (f : α → List β) (g : β → Nat) :
    ((l.flatMap f).map g).sum = (l.map (fun a => ((f a).map g).sum)).sum := by
  induction l with
  | nil => rfl
  | cons a t ih => simp [ih]

theorem length_flatMap_sum {α β : Type} (l : List α) (f : α → List β) :
    (l.flatMap f).length = (l.map (fun a => (f a).length)).sum := by
  induction l with
  | nil => rfl
  | cons a t ih => simp [ih]

theorem explore_index_list_length (p : Project) :
    (explore_index_list p).length = _count_explores p := by
  unfold explore_index_list _count_explores
  rw [length_flatMap_sum]
  simp only [List.length_map, List.length_range]
  rw [foldl_add_map_sum (fun m => m.explores.length) p.models 0]
  simp only [Nat.zero_add]
  exact congrArg List.sum (map_range_getD p.models default (fun m => m.explores.length))

theorem index_list_dim_sum (p : Project) :
    ((explore_index_list p).map (fun me => dimCountAt p me.1 me.2)).sum =
      total_dimensions p := by
  unfold explore_index_list total_dimensions
  rw [sum_map_flatMap]
  simp only [List.map_map]
  have hin : ∀ mi, ((List.range (modelAt p mi).explores.length).map
      ((fun me => dimCountAt p me.1 me.2) ∘ (fun ei => (mi, ei)))).sum =
      ((modelAt p mi).explores.map (fun e => e.dimensions.length)).sum := by
    intro mi
    exact congrArg List.sum
      (map_range_getD (modelAt p mi).explores default (fun e => e.dimensions.length))
  rw [List.map_congr_left (fun mi _ => hin mi)]
  exact congrArg List.sum
    (map_range_getD p.models default (fun m => (m.explores.map (fun e => e.dimensions.length)).sum))

theorem query_explore_skel {p : Project} {mi ei : Nat} {r : QueryResult} {p' : Project}
    {oe : Option SqlError} (h : _query_explore p mi ei r = .ok (p', oe)) :
    skel p' = skel p := by
  cases r with
  | success =>
    simp only [_query_explore] at h
    cases h
    rfl
  | payload errs sql =>
    cases errs with
    | nil =>
      simp only [_query_explore] at h
      cases h
    | cons a as =>
      simp only [_query_explore] at h
      cases h
      apply map_updateAt
      intro m
      apply congrArg (fun l => (m.name, l))
      apply map_updateAt
      intro ex
      rfl
  | malformed raw =>
    simp only [_query_explore] at h
    cases h

theorem query_dimension_skel {p : Project} {mi ei di : Nat} {r : QueryResult} {p' : Project}
    {oe : Option SqlError} (h : _query_dimension p mi ei di r = .ok (p', oe)) :
    skel p' = skel p := by
  cases r with
  | success =>
    simp only [_query_dimension] at h
    cases h
    rfl
  | payload errs sql =>
    cases errs with
    | nil =>
      simp only [_query_dimension] at h
      cases h
    | cons a as =>
      simp only [_query_dimension] at h
      cases h
      apply map_updateAt
      intro m
      apply congrArg (fun l => (m.name, l))
      apply map_updateAt
      intro ex
      apply congrArg (fun l => (ex.name, l))
      apply map_updateAt
      intro d
      rfl
  | malformed raw =>
    simp only [_query_dimension] at h
    cases h

theorem mskel_of_skel {p q : Project} (h : skel p = skel q) (mi : Nat) :
    mskel (modelAt p mi) = mskel (modelAt q mi) := by
  have h1 : (skel p).getD mi (mskel default) = (skel q).getD mi (mskel default) := by rw [h]
  unfold skel at h1
  rw [getD_map mskel p.models mi default, getD_map mskel q.models mi default] at h1
  exact h1

theorem eskel_of_skel {p q : Project} (h : skel p = skel q) (mi ei : Nat) :
    eskel (exploreAt p mi ei) = eskel (exploreAt q mi ei) := by
  have h1 : (modelAt p mi).explores.map eskel = (modelAt q mi).explores.map eskel :=
    congrArg Prod.snd (mskel_of_skel h mi)
  have h2 : ((modelAt p mi).explores.map eskel).getD ei (eskel default) =
      ((modelAt q mi).explores.map eskel).getD ei (eskel default) := by rw [h1]
  rw [getD_map eskel (modelAt p mi).explores ei default,
      getD_map eskel (modelAt q mi).explores ei default] at h2
  exact h2

theorem dimCount_of_skel {p q : Project} (h : skel p = skel q) (mi ei : Nat) :
    dimCountAt p mi ei = dimCountAt q mi ei := by
  have h1 : (exploreAt p mi ei).dimensions.map (fun d => d.name) =
      (exploreAt q mi ei).dimensions.map (fun d => d.name) :=
    congrArg Prod.snd (eskel_of_skel h mi ei)
  have h2 := congrArg List.length h1
  simpa [dimCountAt] using h2

theorem validate_dims_ok_facts (oracle : Oracle) (mi ei : Nat) :
    ∀ (idxs : List Nat) (p q : Project) (errs : List SqlError),
    (_validate_dims oracle p mi ei idxs).2 = .ok (q, errs) →
    skel q = skel p ∧ (_validate_dims oracle p mi ei idxs).1.length = idxs.length := by
  intro idxs
  induction idxs with
  | nil =>
    intro p q errs h
    simp only [_validate_dims] at h ⊢
    cases h
    exact ⟨rfl, rfl⟩
  | cons di rest ih =>
    intro p q errs h
    cases hq : _query_dimension p mi ei di
        (oracle (modelAt p mi).name (exploreAt p mi ei).name
          [(dimsNamesAt p mi ei).getD di ""]) with
    | error e =>
      simp only [_validate_dims, _query_dimension_run, _run_async_query, hq] at h
      cases h
    | ok pe =>
      cases pe with
      | mk p1 oe =>
        cases hrec : _validate_dims oracle p1 mi ei rest with
        | mk reqs r' =>
          cases r' with
          | error e2 =>
            simp only [_validate_dims, _query_dimension_run, _run_async_query, hq, hrec,
              Except.map] at h
            cases h
          | ok pe' =>
            cases pe' with
            | mk q' errs2 =>
              simp only [_validate_dims, _query_dimension_run, _run_async_query, hq, hrec,
                Except.map] at h ⊢
              cases h
              have hfacts := ih p1 _ _ (by rw [hrec])
              refine ⟨hfacts.1.trans (query_dimension_skel hq), ?_⟩
              have h2 : reqs.length = rest.length := by
                have := hfacts.2
                rw [hrec] at this
                exact this
              simp [h2]

theorem validate_explore_ok_facts (oracle : Oracle) (batch : Bool) (p : Project)
    (mi ei : Nat) (q : Project) (errs : List SqlError)
    (h : (_validate_explore oracle batch p mi ei).2 = .ok (q, errs)) :
    skel q = skel p ∧
    (_validate_explore oracle batch p mi ei).1.length =
      cond batch 1 (dimCountAt p mi ei) := by
  cases batch with
  | false =>
    have hfacts := validate_dims_ok_facts oracle mi ei
      (List.range (dimCountAt p mi ei)) p q errs h
    exact ⟨hfacts.1, by simpa using hfacts.2⟩
  | true =>
    cases hq : _query_explore p mi ei
        (oracle (modelAt p mi).name (exploreAt p mi ei).name (dimsNamesAt p mi ei)) with
    | error e =>
      simp only [_validate_explore, _query_explore_run, _run_async_query, hq,
        Except.map] at h
      cases h
    | ok pe =>
      cases pe with
      | mk p1 oe =>
        simp only [_validate_explore, _query_explore_run, _run_async_query, hq,
          Except.map] at h ⊢
        cases h
        exact ⟨query_explore_skel hq, rfl⟩

theorem validate_go_ok_facts (oracle : Oracle) (batch : Bool) :
    ∀ (idxs : List (Nat × Nat)) (p q : Project) (errs : List SqlError),
    (validate_go oracle batch p idxs).2 = .ok (q, errs) →
    skel q = skel p ∧
    (validate_go oracle batch p idxs).1.length =
      (idxs.map (fun me => cond batch 1 (dimCountAt p me.1 me.2))).sum := by
  intro idxs
  induction idxs with
  | nil =>
    intro p q errs h
    simp only [validate_go] at h ⊢
    cases h
    exact ⟨rfl, rfl⟩
  | cons me rest ih =>
    intro p q errs h
    cases me with
    | mk mi ei =>
      cases hve : _validate_explore oracle batch p mi ei with
      | mk reqs r =>
        cases r with
        | error e =>
          simp only [validate_go, hve] at h
          cases h
        | ok pe =>
          cases pe with
          | mk p1 errs1 =>
            cases hrec : validate_go oracle batch p1 rest with
            | mk reqs2 r2 =>
              cases r2 with
              | error e2 =>
                simp only [validate_go, hve, hrec, Except.map] at h
                cases h
              | ok pe2 =>
                cases pe2 with
                | mk q2 errs2 =>
                  simp only [validate_go, hve, hrec, Except.map] at h ⊢
                  cases h
                  have hef := validate_explore_ok_facts oracle batch p mi ei p1 errs1
                    (by rw [hve])
                  have hrf := ih p1 _ _ (by rw [hrec])
                  refine ⟨hrf.1.trans hef.1, ?_⟩
                  rw [List.length_append]
                  have h1 : reqs.length = cond batch 1 (dimCountAt p mi ei) := by
                    have := hef.2
                    rw [hve] at this
                    exact this
                  have h2 : reqs2.length =
                      (rest.map (fun me => cond batch 1 (dimCountAt p1 me.1 me.2))).sum := by
                    have := hrf.2
                    rw [hrec] at this
                    exact this
                  rw [h1, h2]
                  have h3 : rest.map (fun me => cond batch 1 (dimCountAt p1 me.1 me.2)) =
                      rest.map (fun me => cond batch 1 (dimCountAt p me.1 me.2)) :=
                    List.map_congr_left (fun me _ =>
                      congrArg (cond batch 1) (dimCount_of_skel hef.1 me.1 me.2))
                  rw [h3, List.map_cons, List.sum_cons]

/-- C9: `Runner.validate_sql` hands its `mode` string straight to
`validate`, whose branch between the two granularities is the Python
truthiness of that parameter; hence every non-empty mode string —
including `per-dimension` — makes validation run in batch mode, issuing
one query unit per explore, and only the empty mode string runs
per-dimension mode. -/
theorem C9_mode_truthiness (oracle : Oracle) (p : Project) :
    (∀ mode : String, mode ≠ "" → validate_sql oracle mode p = validate oracle true p) ∧
    validate_sql oracle "per-dimension" p = validate oracle true p ∧
    validate_sql oracle "" p = validate oracle false p ∧
    (∀ (q : Project) (errs : List SqlError),
      (validate oracle true p).2 = .ok (q, errs) →
      (validate oracle true p).1.length = _count_explores p) := by
  refine ⟨?_, ?_, ?_, ?_⟩
  · intro mode h
    unfold validate_sql
    rw [show (mode != "") = true from by simpa [bne_iff_ne] using h]
  · unfold validate_sql
    rw [show (("per-dimension" : String) != "") = true from by decide]
  · unfold validate_sql
    rw [show (("" : String) != "") = false from by decide]
  · intro q errs h
    have hl := (validate_go_ok_facts oracle true (explore_index_list p) p q errs h).2
    have hone : ((explore_index_list p).map
        (fun me => cond true 1 (dimCountAt p me.1 me.2))).sum =
        (explore_index_list p).length := sum_map_one (explore_index_list p)
    rw [hone, explore_index_list_length] at hl
    exact hl

/-- C9 witness: a clean batch run over the two-explore fixture issues
exactly one query per explore, and the concrete mode strings behave as
the theorem states. -/
theorem C9_mode_truthiness_witness :
    validate_sql oracleOk "per-dimension" projW2 = validate oracleOk true projW2 ∧
    (validate oracleOk true projW2).1.length = _count_explores projW2 :=
  ⟨(C9_mode_truthiness oracleOk projW2).2.1,
   (C9_mode_truthiness oracleOk projW2).2.2.2 projW2 [] (by rfl)⟩

/-- C8 (spec-modelled): the concurrency-bounded dispatcher of the spec
— absent from the source files, which hold only its caller — never has
more than `K` query units awaiting completion in any reachable state,
conserves the total number of units, and the number of units a
validation pass issues is the count determined by the hierarchy and the
mode: one per explore in batch mode, one per selected dimension in
per-dimension mode (witnessed against the actual request trace of
`validate`). -/
theorem C8_concurrency_bound (K : Nat) (batch : Bool) (p : Project) (s : SchedState)
    (hK : K < schedUnitCount batch p)
    (hr : SchedReachable K (schedUnitCount batch p) s) :
    s.inflight ≤ K ∧
    s.pending + s.inflight + s.done = schedUnitCount batch p ∧
    (∀ (oracle : Oracle) (q : Project) (errs : List SqlError),
      (validate oracle batch p).2 = .ok (q, errs) →
      (validate oracle batch p).1.length = schedUnitCount batch p) := by
  have hinv : s.inflight ≤ K ∧
      s.pending + s.inflight + s.done = schedUnitCount batch p := by
    induction hr with
    | init => exact ⟨Nat.zero_le K, rfl⟩
    | step hprev hstep ih =>
      cases hstep with
      | launch pp i d hi =>
        have h1 := ih.1
        have h2 := ih.2
        refine ⟨?_, ?_⟩
        · show i + 1 ≤ K
          omega
        · show pp + (i + 1) + d = schedUnitCount batch p
          have h2' : (pp + 1) + i + d = schedUnitCount batch p := h2
          omega
      | complete pp i d =>
        have h1 : i + 1 ≤ K := ih.1
        have h2 : pp + (i + 1) + d = schedUnitCount batch p := ih.2
        refine ⟨?_, ?_⟩
        · show i ≤ K
          omega
        · show pp + i + (d + 1) = schedUnitCount batch p
          omega
  refine ⟨hinv.1, hinv.2, ?_⟩
  intro oracle q errs h
  have hl := (validate_go_ok_facts oracle batch (explore_index_list p) p q errs h).2
  cases batch with
  | true =>
    have hone : ((explore_index_list p).map
        (fun me => cond true 1 (dimCountAt p me.1 me.2))).sum =
        (explore_index_list p).length := sum_map_one (explore_index_list p)
    rw [hone, explore_index_list_length] at hl
    exact hl
  | false =>
    have hdim : ((explore_index_list p).map
        (fun me => cond false 1 (dimCountAt p me.1 me.2))).sum = total_dimensions p :=
      index_list_dim_sum p
    rw [hdim] at hl
    exact hl

/-- C8 witness: two batch units under bound 1, in the state reached
after launching the first unit. -/
theorem C8_concurrency_bound_witness :
    (SchedState.mk 1 1 0).inflight ≤ 1 ∧
    (SchedState.mk 1 1 0).pending + (SchedState.mk 1 1 0).inflight
        + (SchedState.mk 1 1 0).done = schedUnitCount true projW2 ∧
    (∀ (oracle : Oracle) (q : Project) (errs : List SqlError),
      (validate oracle true projW2).2 = .ok (q, errs) →
      (validate oracle true projW2).1.length = schedUnitCount true projW2) :=
  C8_concurrency_bound 1 true projW2 ⟨1, 1, 0⟩ (by decide)
    (SchedReachable.step SchedReachable.init (SchedStep.launch 1 0 0 (by decide)))

end Spectacles

